import Mathlib

/-!
# Verification of the `monty` compiler front-end type store and MIR builder

This development gives a shallow embedding, in Lean 4, of the parts of the
`monty` repository that its specification makes claims about:

* the type-descriptor universe and the inference engine's store
  (`monty/typechecker/type_info.py`, `monty/typechecker/inference_engine.py`),
* the expression type revealer and annotation resolver (`monty/driver.py`),
* the MIR `FluidBlock` builder (`monty/mir/ebb.py`, `monty/mir/instr.py`),
* the driver entry point's input dispatch (`monty/driver.py`).

Python's mutable store is threaded explicitly as a `List TypeInfo`; recursive
procedures of the source that can diverge (`unify`, `reconstruct`,
`reveal_type`) take a fuel argument, with fuel exhaustion kept distinct from
an exception being raised.  The `SSAMap` container used by the inference
engine is not part of the sources at hand; its three operations are modelled
from the specification (see the doc comments on `insertTI`, `getByValue` and
`idx`).  Python integer truthiness (`0` and `None` are falsy) is modelled
explicitly where the source relies on `or`-chaining.
-/

/-- The `Primitive` enumeration from `monty/typechecker/type_info.py`.
`Unknown` is the special-cased descriptor slotted at store index 0. -/
inductive Primitive where
  | Unknown
  | Bool
  | Number
  | LValue
  | Module
  | Return
  | Integer
  | Nothing
  | None_
  | I64
  | I32
deriving DecidableEq

/-- Store handles are plain non-negative integers (`TypeId = int`). -/
abbrev TypeId := Nat

/-- The tagged universe of type descriptors from
`monty/typechecker/type_info.py`: primitives, homogeneous lists, callables
and the `Ref` indirection node introduced by unification.  (`TypeVar` is
declared in the source but reserved for future use and never constructed.) -/
inductive TypeInfo where
  | prim (p : Primitive)
  | list (kind : TypeId)
  | callable (parameters output : TypeId)
  | ref (target : TypeId)
deriving DecidableEq

/-- The inference engine's backing table of descriptors, in insertion order. -/
abbrev Store := List TypeInfo

/-- Modelled from the spec: `SSAMap.insert(info)` appends `info` and returns
the freshly issued id (`§4.1: append and return new id; does not
deduplicate`). -/
def insertTI (s : Store) (info : TypeInfo) : Store × TypeId :=
  (s ++ [info], s.length)

/-- Helper for `getByValue`: linear scan carrying the index of the head. -/
def getByValueAux : Store → TypeInfo → Nat → Option TypeId
  | [], _, _ => none
  | x :: xs, info, i => if x = info then some i else getByValueAux xs info (i + 1)

/-- Modelled from the spec: `SSAMap.get_by_value(info)` is a linear-equality
lookup returning the first matching id, or none (`§4.1`). -/
def getByValue (s : Store) (info : TypeInfo) : Option TypeId :=
  getByValueAux s info 0

/-- Modelled from the spec: `SSAMap.__getitem__` is random access by id
(`§4.1: out-of-range is a programmer error`); every theorem below that reads
through `idx` carries an in-range hypothesis, so the default value is never
what a conclusion rests on. -/
def idx (s : Store) (i : TypeId) : TypeInfo :=
  s.getD i (.prim .Unknown)

/-- `InferenceEngine.get_id_or_insert` (inference_engine.py line 38):
`return self.get_by_value(thing) or self.insert(thing)`.  Python's `or`
evaluates the right operand whenever the left is falsy, and the id `0` is
falsy, so a lookup that finds its descriptor at index 0 still inserts. -/
def getIdOrInsert (s : Store) (thing : TypeInfo) : Store × TypeId :=
  match getByValue s thing with
  | some i => if i = 0 then insertTI s thing else (s, i)
  | none => insertTI s thing

/-- Result of running `InferenceEngine.unify` for a given amount of fuel:
either the fuel ran out (the call had not returned yet), or the Python code
raised `TypeCheckError` carrying both operand descriptors, or it returned
with the store mutated. -/
inductive URes where
  | fuelOut
  | raised (leftTy rightTy : TypeInfo)
  | ok (s : Store)
deriving DecidableEq

/-- `InferenceEngine.unify` (inference_engine.py lines 12-35), translated
branch for branch.  Note lines 21-25 of the source: the `Ref` cases recurse
as `self.unify(left, left_ty.target)` and `self.unify(right,
right_ty.target)` — the *same* side is passed again together with its own
target, and the opposite side is dropped. -/
def unify : Nat → Store → TypeId → TypeId → URes
  | 0, _, _, _ => .fuelOut
  | fuel + 1, s, left, right =>
    if idx s left = .prim .Unknown then
      .ok (s.set left (.ref right))
    else if idx s right = .prim .Unknown then
      .ok (s.set right (.ref left))
    else
      match idx s left, idx s right with
      | .ref t, _ => unify fuel s left t
      | _, .ref t => unify fuel s right t
      | .list lk, .list rk => unify fuel s lk rk
      | .callable lp lo, .callable rp ro =>
        match unify fuel s lp rp with
        | .ok s1 => unify fuel s1 lo ro
        | other => other
      | lt, rt => .raised lt rt

/-- The `.name` rendering of a `Primitive` member, as Python's `enum` does. -/
def primName : Primitive → String
  | .Unknown => "Unknown"
  | .Bool => "Bool"
  | .Number => "Number"
  | .LValue => "LValue"
  | .Module => "Module"
  | .Return => "Return"
  | .Integer => "Integer"
  | .Nothing => "Nothing"
  | .None_ => "None_"
  | .I64 => "I64"
  | .I32 => "I32"

/-- `InferenceEngine.reconstruct` together with the `reconstruct` methods of
the descriptor classes (type_info.py): primitives render as their enum name,
`List`/`Callable` render recursively, `Ref` renders its target.  `none`
means the recursion had not produced a string within the given fuel. -/
def reconstruct : Nat → Store → TypeId → Option String
  | 0, _, _ => none
  | fuel + 1, s, i =>
    match idx s i with
    | .prim p => some (primName p)
    | .list k =>
      match reconstruct fuel s k with
      | some e => some ("List[" ++ e ++ "]")
      | none => none
    | .callable ps os =>
      match reconstruct fuel s ps, reconstruct fuel s os with
      | some a, some b => some ("Callable[" ++ a ++ ", " ++ b ++ "]")
      | _, _ => none
    | .ref t => reconstruct fuel s t

/-! ## The driver: scopes, annotation resolution and `reveal_type`
(`monty/driver.py`) -/

/-- Constant values the front end can meet in an `ast.Constant` node. -/
inductive ConstVal where
  | intv (n : Int)
  | strv (s : String)
  | boolv (b : Bool)
  | nonev

/-- The comparison operators the builder knows about (`ast.Eq`, `ast.NotEq`,
`ast.Gt`) plus the rejected remainder. -/
inductive CmpOp where
  | eq
  | neq
  | gt
  | other

/-- Binary operators: `ast.Add`, `ast.Sub`, and the rejected remainder. -/
inductive BinOpKind where
  | add
  | sub
  | other

/-- The expression fragment of the surface AST that `reveal_type` inspects. -/
inductive Expr where
  | binop (op : BinOpKind) (left right : Expr)
  | call (func : Expr) (args : List Expr)
  | compare (left : Expr) (ops : List CmpOp) (comparators : List Expr)
  | constant (c : ConstVal)
  | name (ident : String) (isLoad : Bool)

/-- `monty.language.Function` (modelled from the spec §3: `{name, node,
type_id}` where `type_id` names a `Callable`); the node is irrelevant to the
claims. -/
structure Func where
  name : String
  typeId : TypeId

mutual
/-- `monty.language.Scope`: direct items, the rib stack of lexical
`name → TypeInfo` bindings, and the back-pointer to the module item.  Ribs
are Python dicts, modelled as association lists with first-match lookup. -/
inductive Scope where
  | mk (items : List Item) (ribs : List (List (String × TypeInfo)))
      (module : Option Item)
/-- `monty.language.Item`, restricted to what `reveal_type` reads: the
optional owned `Function` record and the optional inner scope. -/
inductive Item where
  | mk (function : Option Func) (scope : Option Scope)
end

/-- Field accessor for `Scope.items`. -/
def Scope.items : Scope → List Item
  | .mk items _ _ => items

/-- Field accessor for `Scope.ribs`. -/
def Scope.ribs : Scope → List (List (String × TypeInfo))
  | .mk _ ribs _ => ribs

/-- Field accessor for `Scope.module`. -/
def Scope.module : Scope → Option Item
  | .mk _ _ module => module

/-- Field accessor for `Item.function`. -/
def Item.function : Item → Option Func
  | .mk function _ => function

/-- Field accessor for `Item.scope`. -/
def Item.scope : Item → Option Scope
  | .mk _ scope => scope

/-- Python dict lookup on an association list: the first binding wins. -/
def dictFind? {α : Type} : List (String × α) → String → Option α
  | [], _ => none
  | (k, v) :: rest, target => if k = target then some v else dictFind? rest target

/-- The rib walk of driver.py lines 96-98: iterate `scope.ribs[::-1]` and
return the first stack that contains the name. -/
def findRibVal : List (List (String × TypeInfo)) → String → Option TypeInfo
  | [], _ => none
  | stack :: rest, target =>
    match dictFind? stack target with
    | some ti => some ti
    | none => findRibVal rest target

/-- The item walk of driver.py lines 100-106: the first item owning a
function of the requested name. -/
def findFunc : List Item → String → Option Func
  | [], _ => none
  | it :: rest, target =>
    match it.function with
    | some f => if f.name = target then some f else findFunc rest target
    | none => findFunc rest target

/-- Result of a `reveal_type`/annotation-resolution call: fuel ran out, a
Python exception propagated, or a `TypeId` was returned with the store in
its final state. -/
inductive RRes where
  | fuelOut
  | raised
  | ok (t : TypeId) (s : Store)
deriving DecidableEq

/-- `CompilationUnit.resolve_annotation` (driver.py lines 116-163) applied to
an `ast.Constant` node, which is how `reveal_type` handles constants.  A
string constant satisfies the deprecated `isinstance(node, ast.Str)` shim of
the host `ast` module, so the source feeds the node itself to
`ast.parse(..., mode="eval")`, which raises `TypeError` — hence `.raised`.
Other constants go through `check_builtins`: `type(value)` is looked up in
`{int: I64, float: Number, bool: Bool, NoneType: None_}` (a Python `bool` is
found under the `bool` key because `type(True) is bool`), and the resulting
id is `or`-chained with `get_id_or_insert(Unknown)`, so a falsy id `0` would
fall through to a fresh `Unknown` insertion. -/
def annOk (s : Store) (kind : Primitive) : RRes :=
  let r := getIdOrInsert s (.prim kind)
  if r.2 = 0 then
    let q := getIdOrInsert r.1 (.prim .Unknown)
    .ok q.2 q.1
  else
    .ok r.2 r.1

/-- Dispatch of `resolveAnnConst` on the host type of the constant, per the
`builtin_map.get(type(value), Primitive.Unknown)` line: `int → I64`,
`bool → Bool` (a Python `bool` is found under its own key), `None → None_`. -/
def resolveAnnConst (s : Store) (c : ConstVal) : RRes :=
  match c with
  | .strv _ => .raised
  | .intv _ => annOk s .I64
  | .boolv _ => annOk s .Bool
  | .nonev => annOk s .None_

/-- The body of `reveal_type` for an `ast.BinOp` node (driver.py lines
55-74), with the recursive calls abstracted so that `revealType` below has
one equation per AST constructor.  Both operands are revealed in order
(threading the mutated store), then both resolved descriptors must be
`Primitive.I64`, in which case the id for `I64` is looked up or inserted;
otherwise a `RuntimeError` is raised. -/
def revealBin (rec : Store → Expr → RRes) (s : Store) (l r : Expr) : RRes :=
  match rec s l with
  | .fuelOut => .fuelOut
  | .raised => .raised
  | .ok lhs s1 =>
    match rec s1 r with
    | .fuelOut => .fuelOut
    | .raised => .raised
    | .ok rhs s2 =>
      if idx s2 lhs = .prim .I64 ∧ idx s2 rhs = .prim .I64 then
        .ok (getIdOrInsert s2 (.prim .I64)).2 (getIdOrInsert s2 (.prim .I64)).1
      else
        .raised

/-- The body of `reveal_type` for a load-context `ast.Name` node (driver.py
lines 85-112), with the recursion into the module's top-level scope
abstracted as `rec` (the store is passed along unchanged, exactly as the
source re-enters `reveal_type(node, module_scope)` with the same mutable
engine). -/
def revealNameB (rec : Scope → RRes) (s : Store) (ident : String) (sc : Scope) :
    RRes :=
  match findRibVal sc.ribs.reverse ident with
  | some ti => .ok (getIdOrInsert s ti).2 (getIdOrInsert s ti).1
  | none =>
    match findFunc sc.items ident with
    | some f => .ok f.typeId s
    | none =>
      match sc.module with
      | none => .raised
      | some it =>
        match it.scope with
        | none => .raised
        | some msc => rec msc

/-- `CompilationUnit.reveal_type` (driver.py lines 48-114), translated branch
for branch with explicit fuel. `BinOp` with an operator other than
`Add`/`Sub` hits `assert False`; `Call` reveals its callee; `Compare` always
yields `Bool`; `Constant` goes through annotation resolution; a `Name` in
load context is searched in the reversed rib stack (inserting the bound
descriptor), then among the scope's function items (returning `type_id`
unchanged), and finally the search restarts on `scope.module.scope` — a
missing module or module scope raises. -/
def revealType : Nat → Store → Expr → Scope → RRes
  | 0, _, _, _ => .fuelOut
  | fuel + 1, s, .binop op l r, sc =>
    match op with
    | .other => .raised
    | _ => revealBin (fun st e => revealType fuel st e sc) s l r
  | fuel + 1, s, .call f _, sc => revealType fuel s f sc
  | _ + 1, s, .compare _ _ _, _ =>
    .ok (getIdOrInsert s (.prim .Bool)).2 (getIdOrInsert s (.prim .Bool)).1
  | _ + 1, s, .constant c, _ => resolveAnnConst s c
  | fuel + 1, s, .name ident isLoad, sc =>
    if isLoad then
      revealNameB (fun msc => revealType fuel s (.name ident isLoad) msc)
        s ident sc
    else
      .raised

/-! ## Bare-name annotation resolution (`check_builtins`, driver.py lines
132-157) -/

/-- The objects that `getattr(builtins, name)` can hand back among the names
this front end can meet.  `noneTypeCls` is the class `type(None)`: it is a
key of the source's `builtin_map`, but the host `builtins` module has no
attribute named `NoneType`, so `builtinsAttr` below never produces it. -/
inductive PyBuiltinObj where
  | intCls
  | floatCls
  | boolCls
  | strCls
  | listCls
  | dictCls
  | objectCls
  | typeCls
  | noneTypeCls
deriving DecidableEq

/-- Attribute lookup on the host Python `builtins` module, restricted to the
class names relevant here.  Any name that is not an attribute of `builtins`
(`NoneType` included — it lives in `types`, not `builtins`) makes
`getattr(builtins, tree.id)` raise `AttributeError`, modelled as `none`. -/
def builtinsAttr (name : String) : Option PyBuiltinObj :=
  if name = "int" then some .intCls
  else if name = "float" then some .floatCls
  else if name = "bool" then some .boolCls
  else if name = "str" then some .strCls
  else if name = "list" then some .listCls
  else if name = "dict" then some .dictCls
  else if name = "object" then some .objectCls
  else if name = "type" then some .typeCls
  else none

/-- The `builtin_map` dict of `check_builtins` (driver.py lines 133-138):
`{int: I64, float: Number, bool: Bool, type(None): None_}`. -/
def builtinMap : PyBuiltinObj → Option Primitive
  | .intCls => some .I64
  | .floatCls => some .Number
  | .boolCls => some .Bool
  | .noneTypeCls => some .None_
  | _ => none

/-- Result of resolving a bare-name annotation: `getattr` raised
`AttributeError`, or `check_builtins` raised `Exception("Unsupported builtin
type!")`, or a `TypeId` was produced. -/
inductive AnnRes where
  | attributeError
  | unsupportedError
  | ok (t : TypeId) (s : Store)
deriving DecidableEq

/-- `check_builtins` on an `ast.Name` annotation (driver.py lines 148-154)
combined with the enclosing `or`-chain of `resolve_annotation` (lines
159-163): `getattr(builtins, tree.id)` raises for unknown names; a known
builtin outside `builtin_map` raises `Exception("Unsupported builtin
type!")`; otherwise the mapped primitive's id is looked up or inserted, and
a falsy id `0` would fall through to a fresh `Unknown` insertion.  (All the
class objects `builtinsAttr` can produce are truthy, so the walrus-guarded
conjunction in the source always proceeds.) -/
def resolveAnnName (s : Store) (ident : String) : AnnRes :=
  match builtinsAttr ident with
  | none => .attributeError
  | some b =>
    match builtinMap b with
    | none => .unsupportedError
    | some p =>
      let r := getIdOrInsert s (.prim p)
      if r.2 = 0 then
        let q := getIdOrInsert r.1 (.prim .Unknown)
        .ok q.2 q.1
      else
        .ok r.2 r.1

/-! ## The MIR data model and the `FluidBlock` builder
(`monty/mir/instr.py`, `monty/mir/ebb.py`) -/

/-- The closed opcode enumeration of `monty/mir/instr.py`. -/
inductive InstrOp where
  | IntConst
  | StrConst
  | Return
  | NoOp
  | IAdd
  | ISub
  | UseVar
  | Assign
  | Jump
  | IntCmp
  | BInt
  | BoolConst
  | BranchIntCmp
  | Call
deriving DecidableEq

/-- SSA slots are Python ints, dense from 0 within a function. -/
abbrev SSAValue := Int

/-- Variables are addressed by their user-visible name. -/
abbrev VariableId := String

/-- Block handles are dense non-negative integers per function. -/
abbrev BlockId := Nat

/-- The heterogeneous Python values that appear in an instruction's `args`
and `ret` fields: ints (SSA slots, literals, type ids, block ids), strings
(modes, variable names), booleans, and `None`. -/
inductive PyVal where
  | int (n : Int)
  | str (s : String)
  | bool (b : Bool)
  | none_
deriving DecidableEq

/-- `BlockInstr` (instr.py): an opcode, its operand list and its result
slot (an SSA int, a variable name, or `None`). -/
structure BlockInstr where
  op : InstrOp
  args : List PyVal
  ret : PyVal
deriving DecidableEq

/-- `BasicBlock` (ebb.py): instruction body plus parameter table. -/
structure BasicBlock where
  body : List BlockInstr
  parameters : List (SSAValue × TypeId)
deriving DecidableEq

/-- The mutable EBB builder `FluidBlock` (ebb.py lines 48-60).  Dicts are
modelled as association lists in insertion order; `cursor` is the private
`__cursor` block handle and `lastSsaValue` the private `__last_ssa_value`
counter, which starts at `-1`.  The source's `variables` dict is spelled
`vars` here because `variables` is a reserved word in Lean. -/
structure FluidBlock where
  parameters : List TypeId
  returns : Option TypeId
  vars : List (VariableId × TypeId)
  blocks : List (BlockId × BasicBlock)
  ssaValueTypes : List (SSAValue × TypeId)
  cursor : Option BlockId
  lastSsaValue : Int
deriving DecidableEq

/-- Python dict lookup keyed by block id. -/
def blockFind? : List (BlockId × BasicBlock) → BlockId → Option BasicBlock
  | [], _ => none
  | (k, v) :: rest, target => if k = target then some v else blockFind? rest target

/-- Python dict update: replace the first binding of the key, else append. -/
def blockSet : List (BlockId × BasicBlock) → BlockId → BasicBlock →
    List (BlockId × BasicBlock)
  | [], k, v => [(k, v)]
  | (k0, v0) :: rest, k, v =>
    if k0 = k then (k, v) :: rest else (k0, v0) :: blockSet rest k v

/-- Python dict lookup keyed by SSA value. -/
def ssaFind? : List (SSAValue × TypeId) → SSAValue → Option TypeId
  | [], _ => none
  | (k, v) :: rest, target => if k = target then some v else ssaFind? rest target

/-- Python dict update for the variables table. -/
def varSet : List (VariableId × TypeId) → VariableId → TypeId →
    List (VariableId × TypeId)
  | [], k, v => [(k, v)]
  | (k0, v0) :: rest, k, v =>
    if k0 = k then (k, v) :: rest else (k0, v0) :: varSet rest k v

/-- The Python exceptions the builder can raise. -/
inductive PyErr where
  | keyError
  | typeError
deriving DecidableEq

/-- The `ret` keyword of `FluidBlock._emit`: either absent (the `_NULL`
sentinel, allocating a fresh SSA slot) or an explicit value. -/
inductive EmitRet where
  | defaultFresh
  | given (v : PyVal)

/-- `FluidBlock._emit` (ebb.py lines 66-75).  With `ret` absent the SSA
counter is incremented first and its new value used as the slot; then the
instruction is appended to the cursor block's body.  A missing cursor (or a
cursor naming no block) raises `KeyError` from the `blocks` dict — after the
counter was already bumped, which the returned state reflects. -/
def emit (fb : FluidBlock) (op : InstrOp) (args : List PyVal) (ret : EmitRet) :
    FluidBlock × Except PyErr PyVal :=
  let slotLast : PyVal × Int :=
    match ret with
    | .defaultFresh => (.int (fb.lastSsaValue + 1), fb.lastSsaValue + 1)
    | .given v => (v, fb.lastSsaValue)
  let fb1 := { fb with lastSsaValue := slotLast.2 }
  match fb1.cursor with
  | none => (fb1, .error .keyError)
  | some c =>
    match blockFind? fb1.blocks c with
    | none => (fb1, .error .keyError)
    | some blk =>
      ({ fb1 with
          blocks := blockSet fb1.blocks c
            ⟨blk.body ++ [⟨op, args, slotLast.1⟩], blk.parameters⟩ },
        .ok slotLast.1)

/-- `FluidBlock._typecheck` (ebb.py lines 77-80): look up the recorded type
of the SSA value (`KeyError` when absent) and raise `TypeError` when it
differs from the expected one.  `return_` passes the optional declared
return type, so the comparison is against an `Option TypeId`. -/
def _typecheck (fb : FluidBlock) (value : SSAValue) (expected : Option TypeId) :
    Except PyErr Unit :=
  match ssaFind? fb.ssaValueTypes value with
  | none => .error .keyError
  | some actual => if expected = some actual then .ok () else .error .typeError

/-- `FluidBlock.int_add` (ebb.py lines 141-143): emit `IAdd`. -/
def int_add (fb : FluidBlock) (left right : SSAValue) :
    FluidBlock × Except PyErr PyVal :=
  emit fb .IAdd [.int left, .int right] .defaultFresh

/-- `FluidBlock.int_sub` (ebb.py lines 145-147), translated verbatim: the
source's body is `self._emit(op=InstrOp.IAdd, args=[left, right])` — it
emits `IAdd`, not `ISub`. -/
def int_sub (fb : FluidBlock) (left right : SSAValue) :
    FluidBlock × Except PyErr PyVal :=
  emit fb .IAdd [.int left, .int right] .defaultFresh

/-- `FluidBlock.assign` (ebb.py lines 159-163): typecheck the value against
the annotated type first; only then bind the variable's type and emit the
`Assign` instruction with the variable name as its `ret`. -/
def assign (fb : FluidBlock) (ident : VariableId) (value : SSAValue)
    (ty : TypeId) : FluidBlock × Except PyErr PyVal :=
  match _typecheck fb value (some ty) with
  | .error e => (fb, .error e)
  | .ok _ =>
    let fb1 := { fb with vars := varSet fb.vars ident ty }
    emit fb1 .Assign [.int value] (.given (.str ident))

/-- `FluidBlock.return_` (ebb.py lines 178-181): typecheck the value against
the declared return type first, then emit `Return` with `ret=None`. -/
def return_ (fb : FluidBlock) (value : SSAValue) :
    FluidBlock × Except PyErr PyVal :=
  match _typecheck fb value fb.returns with
  | .error e => (fb, .error e)
  | .ok _ => emit fb .Return [.int value] (.given .none_)

/-! ## The driver entry point's input dispatch (`compile_source`,
driver.py lines 194-215) -/

/-- The shapes a caller can hand to `compile_source`: a string of source
text, a text stream (an `io.IOBase` subclass), or something else entirely. -/
inductive PySourceInput where
  | str (s : String)
  | stream (content : String)
  | intObj (n : Int)
  | noneObj
  | bytesObj (bs : List Nat)
  | listObj

/-- The Python type name of an input, as `type(source_input)` renders it
into the error message. -/
def inputTypeName : PySourceInput → String
  | .str _ => "str"
  | .stream _ => "io.IOBase"
  | .intObj _ => "int"
  | .noneObj => "NoneType"
  | .bytesObj _ => "bytes"
  | .listObj => "list"

/-- Errors escaping `compile_source`. -/
inductive CompileErr where
  | typeError (msg : String)
  | otherErr
deriving DecidableEq

/-- The input dispatch of `compile_source` (driver.py lines 197-206),
translated branch for branch: an `IOBase` instance is read, a string is
taken as-is, anything else raises `TypeError` before any other work.  The
remainder of the pipeline (parse, validation, `CompilationUnit()`
construction, typechecking, lowering) runs only on the extracted source
text and is abstracted as `rest`; the claims below quantify over `rest`, so
their conclusions do not depend on it. -/
def compile_source {α : Type} (rest : String → Except CompileErr α)
    (inp : PySourceInput) : Except CompileErr α :=
  match inp with
  | .stream content => rest content
  | .str s => rest s
  | other =>
    .error (.typeError
      ("Expected `source_input` to be a string or file-like object, instead got "
        ++ inputTypeName other))

/-- The seeding invariant of `CompilationUnit.__post_init__` (driver.py
lines 25-27): index 0 of the store holds `Primitive.Unknown`.  Everything
the driver does afterwards only appends or overwrites non-zero slots, so the
invariant persists. -/
def seeded (s : Store) : Prop :=
  s.head? = some (.prim .Unknown)

/-- A scope (together with every scope reachable through its module
back-pointer) none of whose rib bindings is the descriptor
`Primitive.Unknown`.  A rib binding of `Unknown` defeats `get_id_or_insert`
(the found id 0 is falsy), which is the one way `reveal_type` loses
determinism. -/
inductive ScopeOK : Scope → Prop where
  | intro (items : List Item) (ribs : List (List (String × TypeInfo)))
      (module : Option Item)
      (hribs : ∀ rib ∈ ribs, ∀ p ∈ rib, p.2 ≠ TypeInfo.prim .Unknown)
      (hmod : ∀ it, module = some it → ∀ msc, it.scope = some msc → ScopeOK msc) :
      ScopeOK (.mk items ribs module)

/-! ## Lemmas about the store's lookup-or-append discipline -/

theorem getByValueAux_some_spec (info : TypeInfo) :
    ∀ (l : Store) (i j : Nat), getByValueAux l info i = some j →
      i ≤ j ∧ l.getD (j - i) (.prim .Unknown) = info ∧ j - i < l.length := by
  intro l
  induction l with
  | nil => intro i j h; simp [getByValueAux] at h
  | cons x xs ih =>
    intro i j h
    by_cases hx : x = info
    · rw [getByValueAux, if_pos hx] at h
      have hij : i = j := by injection h
      subst hij
      simp [hx]
    · rw [getByValueAux, if_neg hx] at h
      obtain ⟨h1, h2, h3⟩ := ih (i + 1) j h
      have hji : j - i = (j - (i + 1)) + 1 := by omega
      refine ⟨by omega, ?_, by simp; omega⟩
      rw [hji, List.getD_cons_succ]
      exact h2

theorem getByValue_some_spec (s : Store) (info : TypeInfo) (j : Nat)
    (h : getByValue s info = some j) :
    idx s j = info ∧ j < s.length := by
  obtain ⟨-, h2, h3⟩ := getByValueAux_some_spec info s 0 j h
  rw [Nat.sub_zero] at h2 h3
  exact ⟨h2, h3⟩

theorem getByValueAux_append_some (info : TypeInfo) (r : Store) :
    ∀ (l : Store) (i j : Nat), getByValueAux l info i = some j →
      getByValueAux (l ++ r) info i = some j := by
  intro l
  induction l with
  | nil => intro i j h; simp [getByValueAux] at h
  | cons x xs ih =>
    intro i j h
    by_cases hx : x = info
    · rw [getByValueAux, if_pos hx] at h
      simpa [getByValueAux, hx] using h
    · rw [getByValueAux, if_neg hx] at h
      rw [List.cons_append, getByValueAux, if_neg hx]
      exact ih (i + 1) j h

theorem getByValueAux_none_append (info : TypeInfo) (r : Store) :
    ∀ (l : Store) (i : Nat), getByValueAux l info i = none →
      getByValueAux (l ++ info :: r) info i = some (i + l.length) := by
  intro l
  induction l with
  | nil => intro i _; simp [getByValueAux]
  | cons x xs ih =>
    intro i h
    by_cases hx : x = info
    · rw [getByValueAux, if_pos hx] at h
      exact absurd h (by simp)
    · rw [getByValueAux, if_neg hx] at h
      rw [List.cons_append, getByValueAux, if_neg hx]
      rw [ih (i + 1) h]
      congr 1
      simp
      omega

theorem getByValue_extend {s s2 : Store} (info : TypeInfo) (j : Nat)
    (hp : s <+: s2) (h : getByValue s info = some j) :
    getByValue s2 info = some j := by
  obtain ⟨r, rfl⟩ := hp
  exact getByValueAux_append_some info r s 0 j h

theorem getByValue_zero_head (x : TypeInfo) (xs : Store) (info : TypeInfo) :
    getByValue (x :: xs) info = some 0 ↔ x = info := by
  constructor
  · intro h
    by_cases hx : x = info
    · exact hx
    · rw [getByValue, getByValueAux, if_neg hx] at h
      obtain ⟨h1, -, -⟩ := getByValueAux_some_spec info xs 1 0 h
      omega
  · intro hx
    simp [getByValue, getByValueAux, hx]

theorem getByValue_ne_zero_of_head (s : Store) (info : TypeInfo)
    (hne : s ≠ []) (hh : s.head? ≠ some info) : getByValue s info ≠ some 0 := by
  cases s with
  | nil => exact absurd rfl hne
  | cons x xs =>
    intro h
    exact hh (by simpa using ((getByValue_zero_head x xs info).mp h) ▸ rfl)

theorem gio_grows (s : Store) (info : TypeInfo) :
    s <+: (getIdOrInsert s info).1 := by
  rw [getIdOrInsert]
  cases h : getByValue s info with
  | none => exact List.prefix_append s [info]
  | some i =>
    by_cases hi : i = 0
    · simp only [hi, if_pos rfl]
      exact List.prefix_append s [info]
    · simp only [if_neg hi]
      exact List.prefix_rfl

theorem gio_snd_ne_zero (s : Store) (info : TypeInfo) (hne : s ≠ []) :
    (getIdOrInsert s info).2 ≠ 0 := by
  have hlen : s.length ≠ 0 := fun h => hne (List.length_eq_zero.mp h)
  rw [getIdOrInsert]
  cases h : getByValue s info with
  | none => exact hlen
  | some i =>
    by_cases hi : i = 0
    · simp only [hi, if_pos rfl]
      exact hlen
    · simp only [if_neg hi]
      exact hi

theorem gio_lookup (s : Store) (info : TypeInfo)
    (h0 : getByValue s info ≠ some 0) :
    getByValue (getIdOrInsert s info).1 info = some (getIdOrInsert s info).2 := by
  rw [getIdOrInsert]
  cases h : getByValue s info with
  | none =>
    show getByValue (s ++ [info]) info = some s.length
    simpa using getByValueAux_none_append info [] s 0 h
  | some i =>
    have hi : i ≠ 0 := fun hc => h0 (hc ▸ h)
    simp only [if_neg hi]
    exact h

theorem gio_stable (s : Store) (info : TypeInfo)
    (hne : s ≠ []) (h0 : getByValue s info ≠ some 0) (s2 : Store)
    (hp : (getIdOrInsert s info).1 <+: s2) :
    getIdOrInsert s2 info = (s2, (getIdOrInsert s info).2) := by
  have h1 := getByValue_extend info _ hp (gio_lookup s info h0)
  have h2 := gio_snd_ne_zero s info hne
  rw [getIdOrInsert, h1]
  exact if_neg h2

theorem head?_extend {s s2 : Store} (hp : s <+: s2) (hne : s ≠ []) :
    s2.head? = s.head? := by
  obtain ⟨r, rfl⟩ := hp
  cases s with
  | nil => exact absurd rfl hne
  | cons x xs => rfl

theorem idx_extend {s s2 : Store} (i : Nat) (hp : s <+: s2) (hi : i < s.length) :
    idx s2 i = idx s i := by
  obtain ⟨r, rfl⟩ := hp
  rw [idx, idx, List.getD_eq_getElem?_getD, List.getD_eq_getElem?_getD,
    List.getElem?_append_left hi]

theorem idx_lt_of_ne_unknown {s : Store} {i : Nat}
    (h : idx s i ≠ .prim .Unknown) : i < s.length := by
  by_contra hge
  exact h (List.getD_eq_default _ _ (by omega))

theorem idx_set_self (s : Store) (a : Nat) (v : TypeInfo) (h : a < s.length) :
    idx (s.set a v) a = v := by
  induction s generalizing a with
  | nil => simp at h
  | cons x xs ih =>
    cases a with
    | zero => rfl
    | succ n => exact ih n (by simpa using h)

/-! ## C1: idempotence of `get_id_or_insert` -/

/-- C1, counterexample: on the seeded store (`Unknown` at index 0), applying
`get_id_or_insert(Primitive.Unknown)` twice returns two *different* ids — the
lookup finds index 0, which is falsy, so the `or`-chain inserts a fresh
duplicate on every call.  This refutes the claim's "including
Primitive.Unknown" part. -/
theorem getIdOrInsert_unknown_twice_differs :
    (getIdOrInsert [TypeInfo.prim .Unknown] (.prim .Unknown)).2 ≠
      (getIdOrInsert
        (getIdOrInsert [TypeInfo.prim .Unknown] (.prim .Unknown)).1
        (.prim .Unknown)).2 := by
  decide

/-- C1 (amended): for every descriptor other than `Primitive.Unknown`, on a
store whose index 0 holds `Unknown` (the seeding invariant), applying
`get_id_or_insert` twice returns the same `TypeId`, leaves the store
unchanged on the second call, and indexing the store at that id yields the
descriptor. -/
theorem getIdOrInsert_idempotent (s : Store) (info : TypeInfo)
    (hseed : s.head? = some (.prim .Unknown)) (hinfo : info ≠ .prim .Unknown) :
    (getIdOrInsert (getIdOrInsert s info).1 info).2 = (getIdOrInsert s info).2 ∧
    (getIdOrInsert (getIdOrInsert s info).1 info).1 = (getIdOrInsert s info).1 ∧
    idx (getIdOrInsert s info).1 (getIdOrInsert s info).2 = info := by
  have hne : s ≠ [] := by
    intro h
    rw [h] at hseed
    simp at hseed
  have hh : s.head? ≠ some info := by
    rw [hseed]
    intro hc
    exact hinfo ((Option.some.inj hc).symm)
  have h0 := getByValue_ne_zero_of_head s info hne hh
  have hst := gio_stable s info hne h0 (getIdOrInsert s info).1 List.prefix_rfl
  have hlk := gio_lookup s info h0
  exact ⟨by rw [hst], by rw [hst], (getByValue_some_spec _ info _ hlk).1⟩

/-- C1 witness: the amended theorem applied to the seeded one-entry store and
the descriptor `Primitive.I64`. -/
theorem getIdOrInsert_idempotent_witness :
    (getIdOrInsert (getIdOrInsert [TypeInfo.prim .Unknown] (.prim .I64)).1
      (.prim .I64)).2 =
      (getIdOrInsert [TypeInfo.prim .Unknown] (.prim .I64)).2 ∧
    (getIdOrInsert (getIdOrInsert [TypeInfo.prim .Unknown] (.prim .I64)).1
      (.prim .I64)).1 =
      (getIdOrInsert [TypeInfo.prim .Unknown] (.prim .I64)).1 ∧
    idx (getIdOrInsert [TypeInfo.prim .Unknown] (.prim .I64)).1
      (getIdOrInsert [TypeInfo.prim .Unknown] (.prim .I64)).2 = .prim .I64 :=
  getIdOrInsert_idempotent [TypeInfo.prim .Unknown] (.prim .I64) rfl (by decide)

/-! ## C2: unifying two ids of equal primitive kind -/

/-- C2, counterexample: two ids both storing `Primitive.I64` do *not* unify —
no branch of `unify` handles a pair of equal non-`Unknown` primitives, so
the final `else` raises `TypeCheckError`.  This refutes "completes without
raising". -/
theorem unify_equal_i64_raises :
    unify 1 [TypeInfo.prim .Unknown, .prim .I64, .prim .I64] 1 2 =
      .raised (.prim .I64) (.prim .I64) := rfl

/-- C2 (amended): for ids `a`, `b` whose stored descriptors are the same
primitive kind, `unify(a, b)` raises `TypeCheckError` carrying both
descriptors whenever that kind is not `Unknown`; only when the shared kind
is `Unknown` does it complete, setting `store[a] ← Ref(b)`, after which
`reconstruct(a)` agrees with `reconstruct(b)`. -/
theorem unify_same_primitive (s : Store) (a b : TypeId) (p : Primitive)
    (ha : idx s a = .prim p) (hb : idx s b = .prim p) (hlen : a < s.length) :
    (p ≠ .Unknown →
      ∀ fuel, unify (fuel + 1) s a b = .raised (.prim p) (.prim p)) ∧
    (p = .Unknown →
      ∀ fuel, unify (fuel + 1) s a b = .ok (s.set a (.ref b)) ∧
        idx (s.set a (.ref b)) a = .ref b ∧
        ∀ f str, reconstruct f (s.set a (.ref b)) b = some str →
          reconstruct (f + 1) (s.set a (.ref b)) a = some str) := by
  constructor
  · intro hp fuel
    have h1 : TypeInfo.prim p ≠ .prim .Unknown := by
      intro hc
      exact hp (TypeInfo.prim.inj hc)
    simp only [unify, ha, hb, if_neg h1]
  · intro hp fuel
    subst hp
    have h2 : idx (s.set a (.ref b)) a = .ref b := idx_set_self s a _ hlen
    refine ⟨by simp [unify, ha], h2, ?_⟩
    intro f str hr
    simp only [reconstruct, h2]
    exact hr

/-- C2 witness: the amended theorem applied to the store
`[Unknown, I64, I64]` at ids 1 and 2 (raising branch). -/
theorem unify_same_primitive_witness :
    unify 3 [TypeInfo.prim .Unknown, .prim .I64, .prim .I64] 1 2 =
      .raised (.prim .I64) (.prim .I64) :=
  (unify_same_primitive [TypeInfo.prim .Unknown, .prim .I64, .prim .I64]
    1 2 .I64 rfl rfl (by decide)).1 (by decide) 2

/-! ## C3: the `Ref`-following rule of `unify` -/

/-- C3: evaluation at the failing input.  With
`store = [Unknown, Ref(2), Unknown, I64]`, neither `store[1]` nor `store[3]`
is `Unknown` and `store[1]` is `Ref(2)`.  The source's `unify(1, 3)`
recurses as `unify(left, left_ty.target) = unify(1, 2)` — dropping the
right-hand side — and ends with `store[2] = Ref(1)`; the claimed equivalent
`unify(t, R) = unify(2, 3)` ends with `store[2] = Ref(3)`.  The two final
stores differ, so the claim fails on the code (and the mutual `Ref` pair
`store[1] = Ref(2)`, `store[2] = Ref(1)` is a cycle, which the spec's own
invariant forbids unification to introduce). -/
theorem unify_ref_case_drops_right :
    unify 2 [TypeInfo.prim .Unknown, .ref 2, .prim .Unknown, .prim .I64] 1 3 =
      .ok [TypeInfo.prim .Unknown, .ref 2, .ref 1, .prim .I64] ∧
    unify 2 [TypeInfo.prim .Unknown, .ref 2, .prim .Unknown, .prim .I64] 2 3 =
      .ok [TypeInfo.prim .Unknown, .ref 2, .ref 3, .prim .I64] ∧
    (URes.ok [TypeInfo.prim .Unknown, .ref 2, .ref 1, .prim .I64] ≠
      .ok [TypeInfo.prim .Unknown, .ref 2, .ref 3, .prim .I64]) :=
  ⟨rfl, rfl, by decide⟩

/-! ## C6: unifying an `Unknown` left-hand side -/

/-- C6: when `store[L]` is `Primitive.Unknown`, `unify(L, R)` returns after
setting `store[L] ← Ref(R)`, and afterwards `reconstruct(L)` dereferences
the new `Ref` and yields exactly the string `reconstruct(R)` yields. -/
theorem unify_unknown_left_sets_ref (s : Store) (L R : TypeId)
    (hL : idx s L = .prim .Unknown) (hlen : L < s.length) :
    (∀ fuel, unify (fuel + 1) s L R = .ok (s.set L (.ref R))) ∧
    idx (s.set L (.ref R)) L = .ref R ∧
    (∀ f str, reconstruct f (s.set L (.ref R)) R = some str →
      reconstruct (f + 1) (s.set L (.ref R)) L = some str) := by
  have h2 : idx (s.set L (.ref R)) L = .ref R := idx_set_self s L _ hlen
  refine ⟨fun fuel => by simp [unify, hL], h2, ?_⟩
  intro f str hr
  simp only [reconstruct, h2]
  exact hr

/-- C6 witness: on `[Unknown, I64]`, `unify(0, 1)` rewrites slot 0 to
`Ref(1)` and `reconstruct(0)` then yields `"I64"`, the textual form of the
type stored at 1. -/
theorem unify_unknown_left_sets_ref_witness :
    unify 1 [TypeInfo.prim .Unknown, .prim .I64] 0 1 =
      .ok [TypeInfo.ref 1, .prim .I64] ∧
    reconstruct 2 [TypeInfo.ref 1, .prim .I64] 0 = some "I64" := by
  have h := unify_unknown_left_sets_ref [TypeInfo.prim .Unknown, .prim .I64]
    0 1 rfl (by decide)
  exact ⟨h.1 0, h.2.2 1 "I64" rfl⟩

/-! ## C5, C7, C10: the `FluidBlock` emitters -/

theorem emit_given (fb : FluidBlock) (op : InstrOp) (args : List PyVal)
    (v : PyVal) (c : BlockId) (blk : BasicBlock)
    (hc : fb.cursor = some c) (hblk : blockFind? fb.blocks c = some blk) :
    emit fb op args (.given v) =
      ({ fb with blocks := blockSet fb.blocks c ⟨blk.body ++ [⟨op, args, v⟩], blk.parameters⟩ },
        .ok v) := by
  simp only [emit, hc, hblk]

/-- C5: `FluidBlock.int_sub` — the emitter `visit_BinOp` names for a `Sub`
operator — appends an instruction whose opcode is `IAdd`, not `ISub`: the
source body of `int_sub` (ebb.py line 147) passes `op=InstrOp.IAdd`.
Evaluated on a fresh builder with one open block and operand slots 3 and 4:
the appended instruction is `IAdd` with a fresh SSA slot 0, and `IAdd` is a
different opcode from the claimed `ISub`. -/
theorem int_sub_emits_iadd :
    int_sub ⟨[], none, [], [(0, ⟨[], []⟩)], [], some 0, -1⟩ 3 4 =
      (⟨[], none, [], [(0, ⟨[⟨.IAdd, [.int 3, .int 4], .int 0⟩], []⟩)], [],
        some 0, 0⟩, .ok (.int 0)) ∧
    InstrOp.IAdd ≠ InstrOp.ISub :=
  ⟨rfl, by decide⟩

/-- C7: `FluidBlock.return_` raises `TypeError` exactly when the recorded
type of the SSA value differs from the declared return type
(`FluidBlock.returns`), leaving the builder untouched; when they agree it
appends exactly one `Return` instruction carrying that value to the cursor
block and changes nothing else. -/
theorem return_typechecks_against_declared (fb : FluidBlock) (value : SSAValue)
    (actual : TypeId) (c : BlockId) (blk : BasicBlock)
    (hrec : ssaFind? fb.ssaValueTypes value = some actual)
    (hc : fb.cursor = some c)
    (hblk : blockFind? fb.blocks c = some blk) :
    (fb.returns ≠ some actual → return_ fb value = (fb, .error .typeError)) ∧
    (fb.returns = some actual →
      return_ fb value =
        ({ fb with blocks := blockSet fb.blocks c ⟨blk.body ++ [⟨.Return, [.int value], .none_⟩], blk.parameters⟩ },
          .ok .none_)) := by
  constructor
  · intro hne
    simp only [return_, _typecheck, hrec, if_neg hne]
  · intro heq
    simp only [return_, _typecheck, hrec, if_pos heq]
    exact emit_given fb .Return [.int value] .none_ c blk hc hblk

/-- C7 witness: a builder whose slot 0 is recorded at type 5.  Declaring the
return type 6 makes `return_ 0` raise `TypeError` with the state untouched;
declaring 5 appends the single `Return` instruction. -/
theorem return_typechecks_witness :
    return_ ⟨[], some 6, [], [(0, ⟨[], []⟩)], [(0, 5)], some 0, 0⟩ 0 =
      (⟨[], some 6, [], [(0, ⟨[], []⟩)], [(0, 5)], some 0, 0⟩,
        .error .typeError) ∧
    return_ ⟨[], some 5, [], [(0, ⟨[], []⟩)], [(0, 5)], some 0, 0⟩ 0 =
      (⟨[], some 5, [], [(0, ⟨[⟨.Return, [.int 0], .none_⟩], []⟩)], [(0, 5)],
        some 0, 0⟩, .ok .none_) := by
  constructor
  · exact (return_typechecks_against_declared
      ⟨[], some 6, [], [(0, ⟨[], []⟩)], [(0, 5)], some 0, 0⟩
      0 5 0 ⟨[], []⟩ rfl rfl rfl).1 (by decide)
  · exact (return_typechecks_against_declared
      ⟨[], some 5, [], [(0, ⟨[], []⟩)], [(0, 5)], some 0, 0⟩
      0 5 0 ⟨[], []⟩ rfl rfl rfl).2 rfl

/-- C10: when `FluidBlock.assign` raises because the recorded type of the
value differs from the annotated type, the builder state is returned exactly
as it was — `_typecheck` runs before the variable binding and before
`_emit`, so no instruction is appended and no variable is bound. -/
theorem assign_pure_on_type_mismatch (fb : FluidBlock) (ident : VariableId)
    (value : SSAValue) (ty : TypeId) (actual : TypeId)
    (hrec : ssaFind? fb.ssaValueTypes value = some actual)
    (hne : ty ≠ actual) :
    assign fb ident value ty = (fb, .error .typeError) := by
  have h : ¬ (some ty = some actual) := by
    intro hc
    exact hne (Option.some.inj hc)
  simp only [assign, _typecheck, hrec, if_neg h]

/-- C10 witness: slot 0 recorded at type 5, annotated type 6 — the failed
`assign` hands back the builder unchanged. -/
theorem assign_pure_witness :
    assign ⟨[], none, [], [(0, ⟨[], []⟩)], [(0, 5)], some 0, 0⟩ "x" 0 6 =
      (⟨[], none, [], [(0, ⟨[], []⟩)], [(0, 5)], some 0, 0⟩,
        .error .typeError) :=
  assign_pure_on_type_mismatch
    ⟨[], none, [], [(0, ⟨[], []⟩)], [(0, 5)], some 0, 0⟩ "x" 0 6 5 rfl
    (by decide)

/-! ## C8: bare-name annotation resolution -/

/-- C8, counterexample: resolving the bare name `NoneType` does not produce
the `None_` id — `getattr(builtins, "NoneType")` raises `AttributeError`,
because the host `builtins` module has no such attribute.  Likewise a name
that is no builtin at all (`flub`) raises `AttributeError` rather than the
claimed `"Unsupported builtin type"`; only names that *are* builtins but
missing from `builtin_map` (such as `str`) raise that error. -/
theorem resolveAnnName_nonetype_raises :
    resolveAnnName [TypeInfo.prim .Unknown] "NoneType" = .attributeError ∧
    resolveAnnName [TypeInfo.prim .Unknown] "flub" = .attributeError ∧
    resolveAnnName [TypeInfo.prim .Unknown] "str" = .unsupportedError :=
  ⟨rfl, rfl, rfl⟩

/-- C8 (amended): resolving a bare-name annotation maps `int`, `float` and
`bool` to the store ids of `I64`, `Number` and `Bool`; a name that is not an
attribute of the `builtins` module — `NoneType` included — raises
`AttributeError` from `getattr`, and a name that is a builtin but absent
from the builtin map raises `Exception("Unsupported builtin type!")`. -/
theorem resolveAnnName_builtin_dispatch (s : Store) (hs : seeded s) :
    resolveAnnName s "int" =
      .ok (getIdOrInsert s (.prim .I64)).2 (getIdOrInsert s (.prim .I64)).1 ∧
    resolveAnnName s "float" =
      .ok (getIdOrInsert s (.prim .Number)).2 (getIdOrInsert s (.prim .Number)).1 ∧
    resolveAnnName s "bool" =
      .ok (getIdOrInsert s (.prim .Bool)).2 (getIdOrInsert s (.prim .Bool)).1 ∧
    (∀ ident, builtinsAttr ident = none →
      resolveAnnName s ident = .attributeError) ∧
    (∀ ident b, builtinsAttr ident = some b → builtinMap b = none →
      resolveAnnName s ident = .unsupportedError) := by
  have hne : s ≠ [] := by
    intro h
    rw [h] at hs
    simp [seeded] at hs
  refine ⟨?_, ?_, ?_, ?_, ?_⟩
  · have ha : builtinsAttr "int" = some .intCls := rfl
    simp only [resolveAnnName, ha, builtinMap,
      if_neg (gio_snd_ne_zero s (.prim .I64) hne)]
  · have ha : builtinsAttr "float" = some .floatCls := rfl
    simp only [resolveAnnName, ha, builtinMap,
      if_neg (gio_snd_ne_zero s (.prim .Number) hne)]
  · have ha : builtinsAttr "bool" = some .boolCls := rfl
    simp only [resolveAnnName, ha, builtinMap,
      if_neg (gio_snd_ne_zero s (.prim .Bool) hne)]
  · intro ident hid
    simp only [resolveAnnName, hid]
  · intro ident b hid hb
    simp only [resolveAnnName, hid, hb]

/-- C8 witness: on the seeded one-entry store, `int` resolves to the freshly
inserted id 1 for `I64`, and the error branches fire on `flub` and `str`. -/
theorem resolveAnnName_builtin_dispatch_witness :
    resolveAnnName [TypeInfo.prim .Unknown] "int" =
      .ok 1 [TypeInfo.prim .Unknown, .prim .I64] ∧
    resolveAnnName [TypeInfo.prim .Unknown] "list" = .unsupportedError := by
  have h := resolveAnnName_builtin_dispatch [TypeInfo.prim .Unknown] rfl
  exact ⟨h.1, h.2.2.2.2 "list" .listCls rfl rfl⟩

/-! ## C9: the driver's input dispatch -/

/-- C9: `compile_source` hands a string input (and the contents of a text
stream) on to the rest of the pipeline, and for an input of any other type
it returns the `TypeError` with the descriptive message — for *every*
possible continuation `rest`, so in particular no compilation unit is
constructed when the input is rejected. -/
theorem compile_source_input_dispatch :
    (∀ (α : Type) (rest : String → Except CompileErr α) (s : String),
      compile_source rest (.str s) = rest s) ∧
    (∀ (α : Type) (rest : String → Except CompileErr α) (content : String),
      compile_source rest (.stream content) = rest content) ∧
    (∀ (α : Type) (rest : String → Except CompileErr α) (inp : PySourceInput),
      (∀ s, inp ≠ .str s) → (∀ content, inp ≠ .stream content) →
      compile_source rest inp =
        .error (.typeError
          ("Expected `source_input` to be a string or file-like object, instead got "
            ++ inputTypeName inp))) := by
  refine ⟨fun α rest _ => rfl, fun α rest _ => rfl, ?_⟩
  intro α rest inp h1 h2
  cases inp with
  | str s => exact absurd rfl (h1 s)
  | stream c => exact absurd rfl (h2 c)
  | intObj n => rfl
  | noneObj => rfl
  | bytesObj bs => rfl
  | listObj => rfl

/-- C9 witness: `None` as input is rejected with the `TypeError`, whatever
the rest of the pipeline would have done. -/
theorem compile_source_input_dispatch_witness :
    compile_source (fun src => Except.ok src) PySourceInput.noneObj =
      .error (.typeError
        ("Expected `source_input` to be a string or file-like object, instead got "
          ++ inputTypeName PySourceInput.noneObj)) :=
  compile_source_input_dispatch.2.2 String (fun src => Except.ok src)
    PySourceInput.noneObj (fun s h => PySourceInput.noConfusion h)
    (fun c h => PySourceInput.noConfusion h)

/-! ## C4: determinism of `reveal_type` -/

theorem seeded_ne_nil {s : Store} (hs : seeded s) : s ≠ [] := by
  intro h
  rw [h] at hs
  simp [seeded] at hs

theorem seeded_extend {s s2 : Store} (hs : seeded s) (hp : s <+: s2) :
    seeded s2 := by
  have h := head?_extend hp (seeded_ne_nil hs)
  show s2.head? = some (.prim .Unknown)
  rw [h]
  exact hs

theorem seeded_gio_stable (s : Store) (info : TypeInfo) (hs : seeded s)
    (hinfo : info ≠ .prim .Unknown) (s2 : Store)
    (hp : (getIdOrInsert s info).1 <+: s2) :
    getIdOrInsert s2 info = (s2, (getIdOrInsert s info).2) := by
  have hne := seeded_ne_nil hs
  have hh : s.head? ≠ some info := by
    intro hc
    rw [hs] at hc
    exact hinfo ((Option.some.inj hc).symm)
  exact gio_stable s info hne (getByValue_ne_zero_of_head s info hne hh) s2 hp

theorem ScopeOK.ribs_ok {sc : Scope} (h : ScopeOK sc) :
    ∀ rib ∈ sc.ribs, ∀ p ∈ rib, p.2 ≠ TypeInfo.prim .Unknown := by
  cases h with
  | intro items ribs module hribs hmod => exact hribs

theorem ScopeOK.module_ok {sc : Scope} (h : ScopeOK sc) :
    ∀ it, sc.module = some it → ∀ msc, it.scope = some msc → ScopeOK msc := by
  cases h with
  | intro items ribs module hribs hmod => exact hmod

theorem dictFind?_mem {α : Type} (l : List (String × α)) (k : String) (v : α)
    (h : dictFind? l k = some v) : (k, v) ∈ l := by
  induction l with
  | nil => simp [dictFind?] at h
  | cons p rest ih =>
    obtain ⟨k0, v0⟩ := p
    by_cases hk : k0 = k
    · rw [dictFind?, if_pos hk] at h
      have hv : v0 = v := Option.some.inj h
      subst hk
      subst hv
      exact List.mem_cons_self _ _
    · rw [dictFind?, if_neg hk] at h
      exact List.mem_cons_of_mem _ (ih h)

theorem findRibVal_mem (ribs : List (List (String × TypeInfo))) (k : String)
    (ti : TypeInfo) (h : findRibVal ribs k = some ti) :
    ∃ rib ∈ ribs, (k, ti) ∈ rib := by
  induction ribs with
  | nil => simp [findRibVal] at h
  | cons stack rest ih =>
    rw [findRibVal] at h
    cases hd : dictFind? stack k with
    | some v =>
      simp only [hd] at h
      have hv : v = ti := Option.some.inj h
      subst hv
      exact ⟨stack, List.mem_cons_self _ _, dictFind?_mem stack k v hd⟩
    | none =>
      simp only [hd] at h
      obtain ⟨rib, hrib, hmem⟩ := ih h
      exact ⟨rib, List.mem_cons_of_mem _ hrib, hmem⟩

theorem annOk_grows (s : Store) (kind : Primitive) (t : TypeId) (s1 : Store)
    (h : annOk s kind = .ok t s1) : s <+: s1 := by
  rw [annOk] at h
  by_cases h0 : (getIdOrInsert s (.prim kind)).2 = 0
  · rw [if_pos h0] at h
    injection h with h1 h2
    exact (gio_grows s (.prim kind)).trans
      (h2 ▸ gio_grows (getIdOrInsert s (.prim kind)).1 (.prim .Unknown))
  · rw [if_neg h0] at h
    injection h with h1 h2
    exact h2 ▸ gio_grows s (.prim kind)

theorem annOk_stable (s : Store) (kind : Primitive) (t : TypeId) (s1 s2 : Store)
    (hs : seeded s) (hk : kind ≠ .Unknown)
    (h : annOk s kind = .ok t s1) (hp : s1 <+: s2) :
    annOk s2 kind = .ok t s2 := by
  have hne := seeded_ne_nil hs
  have h0 : (getIdOrInsert s (.prim kind)).2 ≠ 0 := gio_snd_ne_zero s _ hne
  rw [annOk, if_neg h0] at h
  injection h with h1 h2
  have hpre : (getIdOrInsert s (.prim kind)).1 <+: s2 := by
    rw [h2]
    exact hp
  have hki : TypeInfo.prim kind ≠ .prim .Unknown := by
    intro hc
    exact hk (TypeInfo.prim.inj hc)
  have hst := seeded_gio_stable s (.prim kind) hs hki s2 hpre
  rw [annOk, hst]
  simp only [h1]
  rw [if_neg (h1 ▸ h0)]

theorem resolveAnnConst_grows (s : Store) (c : ConstVal) (t : TypeId)
    (s1 : Store) (h : resolveAnnConst s c = .ok t s1) : s <+: s1 := by
  cases c with
  | strv v => exact RRes.noConfusion h
  | intv n => exact annOk_grows s .I64 t s1 h
  | boolv b => exact annOk_grows s .Bool t s1 h
  | nonev => exact annOk_grows s .None_ t s1 h

theorem resolveAnnConst_stable (s : Store) (c : ConstVal) (t : TypeId)
    (s1 s2 : Store) (hs : seeded s)
    (h : resolveAnnConst s c = .ok t s1) (hp : s1 <+: s2) :
    resolveAnnConst s2 c = .ok t s2 := by
  cases c with
  | strv v => exact RRes.noConfusion h
  | intv n => exact annOk_stable s .I64 t s1 s2 hs (by decide) h hp
  | boolv b => exact annOk_stable s .Bool t s1 s2 hs (by decide) h hp
  | nonev => exact annOk_stable s .None_ t s1 s2 hs (by decide) h hp

theorem revealBin_grows (rec : Store → Expr → RRes)
    (hgrow : ∀ s e t s1, rec s e = .ok t s1 → s <+: s1)
    (s : Store) (l r : Expr) (t : TypeId) (s1 : Store)
    (h : revealBin rec s l r = .ok t s1) : s <+: s1 := by
  rw [revealBin] at h
  cases hl : rec s l with
  | fuelOut => simp only [hl] at h; exact RRes.noConfusion h
  | raised => simp only [hl] at h; exact RRes.noConfusion h
  | ok lhs sa =>
    simp only [hl] at h
    cases hr : rec sa r with
    | fuelOut => simp only [hr] at h; exact RRes.noConfusion h
    | raised => simp only [hr] at h; exact RRes.noConfusion h
    | ok rhs sb =>
      simp only [hr] at h
      by_cases hcond : idx sb lhs = .prim .I64 ∧ idx sb rhs = .prim .I64
      · rw [if_pos hcond] at h
        injection h with h1 h2
        exact ((hgrow s l lhs sa hl).trans (hgrow sa r rhs sb hr)).trans
          (h2 ▸ gio_grows sb (.prim .I64))
      · rw [if_neg hcond] at h
        exact RRes.noConfusion h

theorem revealBin_stable (rec rec2 : Store → Expr → RRes)
    (hgrow : ∀ s e t s1, rec s e = .ok t s1 → s <+: s1)
    (hstab : ∀ s e t s1 s2, seeded s → rec s e = .ok t s1 → s1 <+: s2 →
      rec2 s2 e = .ok t s2)
    (s : Store) (l r : Expr) (t : TypeId) (s1 s2 : Store)
    (hs : seeded s) (h : revealBin rec s l r = .ok t s1) (hp : s1 <+: s2) :
    revealBin rec2 s2 l r = .ok t s2 := by
  rw [revealBin] at h ⊢
  cases hl : rec s l with
  | fuelOut => simp only [hl] at h; exact RRes.noConfusion h
  | raised => simp only [hl] at h; exact RRes.noConfusion h
  | ok lhs sa =>
    simp only [hl] at h
    cases hr : rec sa r with
    | fuelOut => simp only [hr] at h; exact RRes.noConfusion h
    | raised => simp only [hr] at h; exact RRes.noConfusion h
    | ok rhs sb =>
      simp only [hr] at h
      by_cases hcond : idx sb lhs = .prim .I64 ∧ idx sb rhs = .prim .I64
      · rw [if_pos hcond] at h
        injection h with h1 h2
        have hpsa : s <+: sa := hgrow s l lhs sa hl
        have hpab : sa <+: sb := hgrow sa r rhs sb hr
        have hpbs1 : sb <+: s1 := h2 ▸ gio_grows sb (.prim .I64)
        have hsa : seeded sa := seeded_extend hs hpsa
        have hsb : seeded sb := seeded_extend hsa hpab
        have hl2 : rec2 s2 l = .ok lhs s2 :=
          hstab s l lhs sa s2 hs hl (hpab.trans (hpbs1.trans hp))
        have hr2 : rec2 s2 r = .ok rhs s2 :=
          hstab sa r rhs sb s2 hsa hr (hpbs1.trans hp)
        simp only [hl2, hr2]
        have hlt1 : lhs < sb.length := idx_lt_of_ne_unknown (by
          rw [hcond.1]
          decide)
        have hlt2 : rhs < sb.length := idx_lt_of_ne_unknown (by
          rw [hcond.2]
          decide)
        have hpb2 : sb <+: s2 := hpbs1.trans hp
        have hcond2 : idx s2 lhs = .prim .I64 ∧ idx s2 rhs = .prim .I64 := by
          rw [idx_extend lhs hpb2 hlt1, idx_extend rhs hpb2 hlt2]
          exact hcond
        rw [if_pos hcond2]
        have hpre : (getIdOrInsert sb (.prim .I64)).1 <+: s2 := by
          rw [h2]
          exact hp
        have hst := seeded_gio_stable sb (.prim .I64) hsb (by decide) s2 hpre
        rw [hst]
        simp only [h1]
      · rw [if_neg hcond] at h
        exact RRes.noConfusion h

theorem revealNameB_grows (rec : Scope → RRes) (s : Store) (ident : String)
    (sc : Scope) (hgrow : ∀ msc t s1, rec msc = .ok t s1 → s <+: s1)
    (t : TypeId) (s1 : Store) (h : revealNameB rec s ident sc = .ok t s1) :
    s <+: s1 := by
  rw [revealNameB] at h
  cases hrv : findRibVal sc.ribs.reverse ident with
  | some ti =>
    simp only [hrv] at h
    injection h with h1 h2
    exact h2 ▸ gio_grows s ti
  | none =>
    simp only [hrv] at h
    cases hff : findFunc sc.items ident with
    | some f =>
      simp only [hff] at h
      injection h with h1 h2
      exact h2 ▸ List.prefix_rfl
    | none =>
      simp only [hff] at h
      cases hm : sc.module with
      | none =>
        simp only [hm] at h
        exact RRes.noConfusion h
      | some it =>
        simp only [hm] at h
        cases hsc2 : it.scope with
        | none => simp only [hsc2] at h; exact RRes.noConfusion h
        | some msc =>
          simp only [hsc2] at h
          exact hgrow msc t s1 h

theorem revealNameB_stable (rec rec2 : Scope → RRes) (s s1 s2 : Store)
    (ident : String) (sc : Scope)
    (hs : seeded s) (hp : s1 <+: s2)
    (hribs : ∀ rib ∈ sc.ribs, ∀ p ∈ rib, p.2 ≠ TypeInfo.prim .Unknown)
    (hmodstab : ∀ it msc t, sc.module = some it → it.scope = some msc →
      rec msc = .ok t s1 → rec2 msc = .ok t s2)
    (t : TypeId) (h : revealNameB rec s ident sc = .ok t s1) :
    revealNameB rec2 s2 ident sc = .ok t s2 := by
  rw [revealNameB] at h ⊢
  cases hrv : findRibVal sc.ribs.reverse ident with
  | some ti =>
    simp only [hrv] at h ⊢
    injection h with h1 h2
    obtain ⟨rib, hribmem, hpair⟩ := findRibVal_mem _ ident ti hrv
    have hti : ti ≠ .prim .Unknown :=
      hribs rib (List.mem_reverse.mp hribmem) (ident, ti) hpair
    have hpre : (getIdOrInsert s ti).1 <+: s2 := by
      rw [h2]
      exact hp
    have hst := seeded_gio_stable s ti hs hti s2 hpre
    rw [hst]
    simp only [h1]
  | none =>
    simp only [hrv] at h ⊢
    cases hff : findFunc sc.items ident with
    | some f =>
      simp only [hff] at h ⊢
      injection h with h1 h2
      rw [h1]
    | none =>
      simp only [hff] at h ⊢
      cases hm : sc.module with
      | none =>
        simp only [hm] at h
        exact RRes.noConfusion h
      | some it =>
        simp only [hm] at h ⊢
        cases hsc2 : it.scope with
        | none => simp only [hsc2] at h; exact RRes.noConfusion h
        | some msc =>
          simp only [hsc2] at h ⊢
          exact hmodstab it msc t hm hsc2 h

theorem revealType_grows : ∀ (fuel : Nat) (e : Expr) (sc : Scope) (s : Store)
    (t : TypeId) (s1 : Store),
    revealType fuel s e sc = .ok t s1 → s <+: s1 := by
  intro fuel
  induction fuel with
  | zero =>
    intro e sc s t s1 h
    exact RRes.noConfusion h
  | succ fuel ih =>
    intro e sc s t s1 h
    cases e with
    | binop op l r =>
      cases op with
      | other => exact RRes.noConfusion h
      | add =>
        exact revealBin_grows _ (fun s e t s1 h => ih e sc s t s1 h) s l r t s1 h
      | sub =>
        exact revealBin_grows _ (fun s e t s1 h => ih e sc s t s1 h) s l r t s1 h
    | call f args => exact ih f sc s t s1 h
    | compare l ops cs =>
      have h' : RRes.ok (getIdOrInsert s (.prim .Bool)).2
          (getIdOrInsert s (.prim .Bool)).1 = .ok t s1 := h
      injection h' with h1 h2
      exact h2 ▸ gio_grows s (.prim .Bool)
    | constant c => exact resolveAnnConst_grows s c t s1 h
    | name ident isLoad =>
      cases isLoad with
      | false => exact RRes.noConfusion h
      | true =>
        have h' : revealNameB
            (fun msc => revealType fuel s (.name ident true) msc)
            s ident sc = .ok t s1 := h
        exact revealNameB_grows _ s ident sc
          (fun msc t s1 hm => ih (.name ident true) msc s t s1 hm) t s1 h'

theorem revealType_stable : ∀ (fuel : Nat) (e : Expr) (sc : Scope)
    (s s1 s2 : Store) (t : TypeId), seeded s → ScopeOK sc →
    revealType fuel s e sc = .ok t s1 → s1 <+: s2 →
    revealType fuel s2 e sc = .ok t s2 := by
  intro fuel
  induction fuel with
  | zero =>
    intro e sc s s1 s2 t hs hsc h hp
    exact RRes.noConfusion h
  | succ fuel ih =>
    intro e sc s s1 s2 t hs hsc h hp
    cases e with
    | binop op l r =>
      cases op with
      | other => exact RRes.noConfusion h
      | add =>
        show revealBin (fun st e => revealType fuel st e sc) s2 l r = .ok t s2
        exact revealBin_stable _ _
          (fun s e t s1 h => revealType_grows fuel e sc s t s1 h)
          (fun s e t s1 s2 hs h hp => ih e sc s s1 s2 t hs hsc h hp)
          s l r t s1 s2 hs h hp
      | sub =>
        show revealBin (fun st e => revealType fuel st e sc) s2 l r = .ok t s2
        exact revealBin_stable _ _
          (fun s e t s1 h => revealType_grows fuel e sc s t s1 h)
          (fun s e t s1 s2 hs h hp => ih e sc s s1 s2 t hs hsc h hp)
          s l r t s1 s2 hs h hp
    | call f args => exact ih f sc s s1 s2 t hs hsc h hp
    | compare l ops cs =>
      have h' : RRes.ok (getIdOrInsert s (.prim .Bool)).2
          (getIdOrInsert s (.prim .Bool)).1 = .ok t s1 := h
      injection h' with h1 h2
      have hpre : (getIdOrInsert s (.prim .Bool)).1 <+: s2 := by
        rw [h2]
        exact hp
      have hst := seeded_gio_stable s (.prim .Bool) hs (by decide) s2 hpre
      show RRes.ok (getIdOrInsert s2 (.prim .Bool)).2
          (getIdOrInsert s2 (.prim .Bool)).1 = .ok t s2
      rw [hst]
      simp only [h1]
    | constant c => exact resolveAnnConst_stable s c t s1 s2 hs h hp
    | name ident isLoad =>
      cases isLoad with
      | false => exact RRes.noConfusion h
      | true =>
        have h' : revealNameB
            (fun msc => revealType fuel s (.name ident true) msc)
            s ident sc = .ok t s1 := h
        show revealNameB (fun msc => revealType fuel s2 (.name ident true) msc)
            s2 ident sc = .ok t s2
        refine revealNameB_stable _ _ s s1 s2 ident sc hs hp hsc.ribs_ok
          ?_ t h'
        intro it msc t2 hmod hscope hm
        exact ih (.name ident true) msc s s1 s2 t2 hs
          (hsc.module_ok it hmod msc hscope) hm hp

/-- C4, counterexample: `reveal_type` is not deterministic on every scope.
With the seeded store and a scope whose rib binds `x` to the descriptor
`Primitive.Unknown`, the first call returns id 1 and the second call id 2:
each call's `get_id_or_insert(Unknown)` finds the falsy id 0 and appends a
fresh duplicate. -/
theorem revealType_unknown_rib_fresh_ids :
    revealType 1 [TypeInfo.prim .Unknown] (.name "x" true)
      (.mk [] [[("x", TypeInfo.prim .Unknown)]] none) =
      .ok 1 [TypeInfo.prim .Unknown, .prim .Unknown] ∧
    revealType 1 [TypeInfo.prim .Unknown, .prim .Unknown] (.name "x" true)
      (.mk [] [[("x", TypeInfo.prim .Unknown)]] none) =
      .ok 2 [TypeInfo.prim .Unknown, .prim .Unknown, .prim .Unknown] ∧
    (1 : TypeId) ≠ 2 :=
  ⟨rfl, rfl, by decide⟩

/-- C4 (amended): `reveal_type` is deterministic on seeded stores for every
scope none of whose reachable rib bindings is the descriptor
`Primitive.Unknown`: if a call returns `TypeId` `t` leaving the store `s1`,
the same call on `s1` returns the same `t` and leaves `s1` unchanged.  (When
a rib binds `Unknown`, each call mints a fresh id — see the
counterexample.) -/
theorem revealType_deterministic (fuel : Nat) (e : Expr) (sc : Scope)
    (s s1 : Store) (t : TypeId) (hs : seeded s) (hsc : ScopeOK sc)
    (h : revealType fuel s e sc = .ok t s1) :
    revealType fuel s1 e sc = .ok t s1 :=
  revealType_stable fuel e sc s s1 s1 t hs hsc h List.prefix_rfl

/-- C4 witness: the seeded store `[Unknown]` with a rib binding `x` to
`I64`: the first call inserts `I64` and returns id 1; the second call,
through the theorem, returns the same id 1 and leaves the store alone. -/
theorem revealType_deterministic_witness :
    revealType 1 [TypeInfo.prim .Unknown] (.name "x" true)
      (.mk [] [[("x", TypeInfo.prim .I64)]] none) =
      .ok 1 [TypeInfo.prim .Unknown, .prim .I64] ∧
    revealType 1 [TypeInfo.prim .Unknown, .prim .I64] (.name "x" true)
      (.mk [] [[("x", TypeInfo.prim .I64)]] none) =
      .ok 1 [TypeInfo.prim .Unknown, .prim .I64] := by
  refine ⟨rfl, ?_⟩
  refine revealType_deterministic 1 (.name "x" true)
    (.mk [] [[("x", TypeInfo.prim .I64)]] none)
    [TypeInfo.prim .Unknown] [TypeInfo.prim .Unknown, .prim .I64] 1 rfl ?_ rfl
  refine ScopeOK.intro _ _ _ ?_ ?_
  · intro rib hrib p hp
    rw [List.mem_singleton] at hrib
    subst hrib
    rw [List.mem_singleton] at hp
    subst hp
    decide
  · intro it hit msc hmsc
    exact Option.noConfusion hit
